import Mathlib

/-!
Verification of the nostr-sample relay (src/main.go).

The Go source is shallowly embedded: pure functions become Lean functions,
the handlers become explicit state-passing functions returning the new
server state together with an ordered trace of side-effect actions
(store writes and enqueued outbound messages).  Go machine integers
(`kind`, timestamps) are modelled as `Int`; Go strings as `String`;
Go maps as association lists with overwrite-on-insert.
-/

namespace Nostr

/-- `nostr.Event` (the decoded event structure used by main.go):
`id`, `pubkey`, `created_at`, `kind`, `tags`, `content`, `sig`. -/
structure Event where
  id : String
  pubkey : String
  created_at : Int
  kind : Int
  tags : List (List String)
  content : String
  sig : String
deriving DecidableEq, Repr

/-- `nostr.Filter` as used by `eventMatchesFilter` (src/main.go lines 309-388):
`IDs`, `Authors`, `Kinds`, `Since`, `Until`, `Tags`.  The Go `TagMap`
(map from tag name to value list) is modelled as an association list;
the match over it is a conjunction, so iteration order is irrelevant. -/
structure Filter where
  ids : List String
  authors : List String
  kinds : List Int
  since : Option Int
  until_ : Option Int
  tags : List (String × List String)
deriving DecidableEq, Repr

/-- The Go prefix test `len(s) >= len(p) && s[:len(p)] == p`, on the
characters of the strings. -/
def prefixMatch (p s : String) : Bool :=
  p.data.isPrefixOf s.data

/-- The IDs block of `eventMatchesFilter` (src/main.go lines 311-322):
if `filter.IDs` is non-empty, some member must be non-empty and a prefix
of `event.ID` (`len(id) > 0 && len(event.ID) >= len(id) && event.ID[:len(id)] == id`). -/
def idsMatch (event : Event) (filter : Filter) : Bool :=
  filter.ids.isEmpty || filter.ids.any (fun id => id != "" && prefixMatch id event.id)

/-- The Authors block of `eventMatchesFilter` (src/main.go lines 325-336). -/
def authorsMatch (event : Event) (filter : Filter) : Bool :=
  filter.authors.isEmpty ||
    filter.authors.any (fun author => author != "" && prefixMatch author event.pubkey)

/-- The Kinds block of `eventMatchesFilter` (src/main.go lines 339-350). -/
def kindsMatch (event : Event) (filter : Filter) : Bool :=
  filter.kinds.isEmpty || filter.kinds.any (fun kind => event.kind == kind)

/-- The Since check (src/main.go line 353): fail iff `created_at` is
strictly before `Since`. -/
def sinceMatch (event : Event) (filter : Filter) : Bool :=
  match filter.since with
  | none => true
  | some s => !(event.created_at < s : Bool)

/-- The Until check (src/main.go line 358): fail iff `created_at` is
strictly after `Until`. -/
def untilMatch (event : Event) (filter : Filter) : Bool :=
  match filter.until_ with
  | none => true
  | some u => !(u < event.created_at : Bool)

/-- One iteration of the inner loop of the Tags block (src/main.go
lines 369-381): a tag entry matches a (name, values) constraint iff it has
at least two elements, element 0 equals the name and element 1 is in values. -/
def tagEntryMatches (tagName : String) (tagValues : List String)
    (tag : List String) : Bool :=
  match tag with
  | t0 :: t1 :: _ => t0 == tagName && tagValues.contains t1
  | _ => false

/-- The Tags block of `eventMatchesFilter` (src/main.go lines 363-385):
for every tag-name key with a non-empty value set, some tag entry of the
event must match it; keys with an empty value set are skipped (`continue`). -/
def tagsMatch (event : Event) (filter : Filter) : Bool :=
  filter.tags.all (fun p =>
    p.2.isEmpty || event.tags.any (tagEntryMatches p.1 p.2))

/-- `eventMatchesFilter` (src/main.go lines 309-388): conjunction of the
six field checks, in source order. -/
def eventMatchesFilter (event : Event) (filter : Filter) : Bool :=
  idsMatch event filter && authorsMatch event filter && kindsMatch event filter &&
    sinceMatch event filter && untilMatch event filter && tagsMatch event filter

/-- `eventMatchesFilters` (src/main.go lines 299-306): true iff some filter
in the list matches. -/
def eventMatchesFilters (event : Event) (filters : List Filter) : Bool :=
  filters.any (fun filter => eventMatchesFilter event filter)

/-- A decoded JSON value, as produced by Go's `json.Unmarshal` into
`interface{}` (numbers that occur in this protocol are integers). -/
inductive JVal where
  | null : JVal
  | bool (b : Bool) : JVal
  | num (n : Int) : JVal
  | str (s : String) : JVal
  | arr (elems : List JVal) : JVal
  | obj (fields : List (String × JVal)) : JVal

/-- Look up a key of a JSON object (Go object fields are unique keys). -/
def jLookup (fields : List (String × JVal)) (key : String) : Option JVal :=
  List.lookup key fields

/-- Modelled from the spec: string-typed field of an event/filter object,
decoded by the external go-nostr JSON unmarshaller (not under src/);
a missing field is the zero value "", a non-string value is a decode error. -/
def getStrField (fields : List (String × JVal)) (key : String) : Option String :=
  match jLookup fields key with
  | none => some ""
  | some (.str s) => some s
  | some _ => none

/-- Modelled from the spec: integer-typed field (`created_at`, `kind`),
missing defaults to 0, non-numeric value is a decode error. -/
def getIntField (fields : List (String × JVal)) (key : String) : Option Int :=
  match jLookup fields key with
  | none => some 0
  | some (.num n) => some n
  | some _ => none

/-- Modelled from the spec: a JSON array of strings; anything else fails. -/
def decodeStrList : JVal → Option (List String)
  | .arr vs => vs.mapM (fun v => match v with | .str s => some s | _ => none)
  | _ => none

/-- Modelled from the spec: a JSON array of integers; anything else fails. -/
def decodeIntList : JVal → Option (List Int)
  | .arr vs => vs.mapM (fun v => match v with | .num n => some n | _ => none)
  | _ => none

/-- Modelled from the spec: the `tags` field of an event, an array of
arrays of strings. -/
def decodeTagList : JVal → Option (List (List String))
  | .arr vs => vs.mapM decodeStrList
  | _ => none

/-- Modelled from the spec: `json.Unmarshal` of one event object by the
external go-nostr library (src/main.go line 185); a non-object value or a
wrongly-typed field fails, a missing field yields the Go zero value. -/
def decodeEvent : JVal → Option Event
  | .obj fields => do
    let id ← getStrField fields "id"
    let pubkey ← getStrField fields "pubkey"
    let created_at ← getIntField fields "created_at"
    let kind ← getIntField fields "kind"
    let tags ← match jLookup fields "tags" with
               | none => some []
               | some v => decodeTagList v
    let content ← getStrField fields "content"
    let sig ← getStrField fields "sig"
    some ⟨id, pubkey, created_at, kind, tags, content, sig⟩
  | _ => none

/-- Modelled from the spec: string-list field of a filter (`ids`, `authors`),
missing defaults to the empty list. -/
def getStrListField (fields : List (String × JVal)) (key : String) :
    Option (List String) :=
  match jLookup fields key with
  | none => some []
  | some v => decodeStrList v

/-- Modelled from the spec: integer-list field of a filter (`kinds`). -/
def getIntListField (fields : List (String × JVal)) (key : String) :
    Option (List Int) :=
  match jLookup fields key with
  | none => some []
  | some v => decodeIntList v

/-- Modelled from the spec: optional timestamp field (`since`, `until`). -/
def getOptIntField (fields : List (String × JVal)) (key : String) :
    Option (Option Int) :=
  match jLookup fields key with
  | none => some none
  | some (.num n) => some (some n)
  | some _ => none

/-- Whether a filter-object key is a tag query (starts with '#'). -/
def isTagKey (key : String) : Bool :=
  match key.data with
  | '#' :: _ => true
  | _ => false

/-- The tag name of a tag-query key (the key without its leading '#'). -/
def tagKeyName (key : String) : String :=
  ⟨key.data.drop 1⟩

/-- Modelled from the spec: the `#name` entries of a filter object, each an
array of acceptable values; a wrongly-typed entry fails the whole filter. -/
def collectTagQueries : List (String × JVal) → Option (List (String × List String))
  | [] => some []
  | (key, v) :: rest => do
    let restQ ← collectTagQueries rest
    if isTagKey key then
      let vs ← decodeStrList v
      some ((tagKeyName key, vs) :: restQ)
    else
      some restQ

/-- Modelled from the spec: `json.Unmarshal` of one filter object by the
external go-nostr library (src/main.go line 232); a non-object value or a
wrongly-typed field fails and the filter is skipped by `handleReq`.
(go-nostr's `limit`/`search` fields are ignored by the matcher and omitted.) -/
def decodeFilter : JVal → Option Filter
  | .obj fields => do
    let ids ← getStrListField fields "ids"
    let authors ← getStrListField fields "authors"
    let kinds ← getIntListField fields "kinds"
    let since ← getOptIntField fields "since"
    let u ← getOptIntField fields "until"
    let tags ← collectTagQueries fields
    some ⟨ids, authors, kinds, since, u, tags⟩
  | _ => none

/-- One connected client (src/main.go `Client`): its identity and its
subscription map `subscriptions[subID] -> filters`, an assoc list with
unique keys (a Go map). -/
structure Client where
  cid : Nat
  subscriptions : List (String × List Filter)
deriving DecidableEq, Repr

/-- The relay state (src/main.go `NostrServer`): the event store
`events[id] -> event` (a Go map, modelled with unique keys) and the set of
connected clients. -/
structure ServerState where
  events : List (String × Event)
  clients : List Client
deriving DecidableEq, Repr

/-- Go map insert `m[k] = v`: overwrites any previous binding of `k`. -/
def mapPut {β : Type} (m : List (String × β)) (k : String) (v : β) :
    List (String × β) :=
  (k, v) :: m.filter (fun p => p.1 != k)

/-- An outbound protocol message, as built by sendOK/sendEvent/sendEOSE/
sendNotice (src/main.go lines 390-464). -/
inductive OutMsg where
  | okMsg (eventId : String) (accepted : Bool) (message : String) : OutMsg
  | eventMsg (subId : String) (e : Event) : OutMsg
  | eoseMsg (subId : String) : OutMsg
  | noticeMsg (message : String) : OutMsg
deriving DecidableEq, Repr

/-- One observable side effect of a handler, in program order: a write to
the event store, or a message enqueued to a client's send channel. -/
inductive Action where
  | store (id : String) (e : Event) : Action
  | send (cid : Nat) (m : OutMsg) : Action
deriving DecidableEq, Repr

/-- The per-client body of `broadcastEvent` (src/main.go lines 287-295):
one delivery per subscription whose filters match. -/
def clientBroadcast (event : Event) (cl : Client) : List Action :=
  cl.subscriptions.filterMap (fun p =>
    if eventMatchesFilters event p.2 then some (.send cl.cid (.eventMsg p.1 event))
    else none)

/-- `broadcastEvent` (src/main.go lines 283-296): offer the event to every
client's subscriptions. -/
def broadcastEvent (st : ServerState) (event : Event) : List Action :=
  (st.clients.map (clientBroadcast event)).flatten

/-- The body of `handleEvent` after decoding (src/main.go lines 190-208):
`checkSig` models `event.CheckSignature()` (external library; `true` means
"no error and valid").  On failure: OK/false, no store write, no broadcast.
On success: store, then OK/true to the publisher, then broadcast. -/
def processEvent (checkSig : Event → Bool) (st : ServerState) (cid : Nat)
    (event : Event) : ServerState × List Action :=
  if checkSig event then
    let st' : ServerState := { st with events := mapPut st.events event.id event }
    (st', .store event.id event :: .send cid (.okMsg event.id true "") ::
      broadcastEvent st' event)
  else
    (st, [.send cid (.okMsg event.id false "invalid signature")])

/-- The replay loop of `handleReq` (src/main.go lines 248-254): one
delivery per stored event matching the filter list. -/
def replayTrace (events : List (String × Event)) (cid : Nat) (subId : String)
    (filters : List Filter) : List Action :=
  events.filterMap (fun p =>
    if eventMatchesFilters p.2 filters then some (.send cid (.eventMsg subId p.2))
    else none)

/-- `c.subscriptions[subID] = &Subscription{...}` applied to one client of
the hub (only the requesting client is changed). -/
def subscribeClient (cid : Nat) (subId : String) (filters : List Filter)
    (cl : Client) : Client :=
  if cl.cid == cid then
    { cl with subscriptions := mapPut cl.subscriptions subId filters }
  else cl

/-- The body of `handleReq` after decoding (src/main.go lines 239-258):
store (replace) the subscription, replay matching stored events, then EOSE. -/
def processReq (st : ServerState) (cid : Nat) (subId : String)
    (filters : List Filter) : ServerState × List Action :=
  let st' : ServerState :=
    { st with clients := st.clients.map (subscribeClient cid subId filters) }
  (st', replayTrace st.events cid subId filters ++ [.send cid (.eoseMsg subId)])

/-- The body of `handleClose` after decoding (src/main.go lines 275-277):
delete the subscription; absence is not an error, nothing is sent. -/
def processClose (st : ServerState) (cid : Nat) (subId : String) :
    ServerState × List Action :=
  ({ st with clients := st.clients.map (fun cl =>
      if cl.cid == cid then
        { cl with subscriptions := cl.subscriptions.filter (fun p => p.1 != subId) }
      else cl) }, [])

/-- `handleEvent` (src/main.go lines 172-209) on the elements after the
type tag: too short or undecodable event objects get a NOTICE.
(`json.Marshal` of a value produced by `json.Unmarshal` cannot fail, so the
"Invalid event data" branch at line 180 is unreachable and not modelled.) -/
def handleEvent (checkSig : Event → Bool) (st : ServerState) (cid : Nat)
    (args : List JVal) : ServerState × List Action :=
  match args with
  | [] => (st, [.send cid (.noticeMsg "Invalid EVENT message")])
  | v :: _ =>
    match decodeEvent v with
    | none => (st, [.send cid (.noticeMsg "Invalid event format")])
    | some event => processEvent checkSig st cid event

/-- `handleReq` (src/main.go lines 212-260) on the elements after the type
tag: a filter object that fails to decode is silently skipped (`continue`
at lines 228/233), so the subscription is registered with the filters that
did decode. -/
def handleReq (st : ServerState) (cid : Nat) (args : List JVal) :
    ServerState × List Action :=
  match args with
  | [] => (st, [.send cid (.noticeMsg "Invalid REQ message")])
  | v :: filterVals =>
    match v with
    | .str subId => processReq st cid subId (filterVals.filterMap decodeFilter)
    | _ => (st, [.send cid (.noticeMsg "Invalid subscription ID")])

/-- `handleClose` (src/main.go lines 263-280) on the elements after the
type tag. -/
def handleClose (st : ServerState) (cid : Nat) (args : List JVal) :
    ServerState × List Action :=
  match args with
  | [] => (st, [.send cid (.noticeMsg "Invalid CLOSE message")])
  | .str subId :: _ => processClose st cid subId
  | _ :: _ => (st, [.send cid (.noticeMsg "Invalid subscription ID")])

/-- `handleMessage` (src/main.go lines 140-169).  The argument is the
result of `json.Unmarshal` into `[]interface{}`: `none` for unparseable
input, `some v` for a parsed JSON value (a non-array value is the same
unmarshal type error as unparseable input, line 142). -/
def handleMessage (checkSig : Event → Bool) (st : ServerState) (cid : Nat)
    (msg : Option JVal) : ServerState × List Action :=
  match msg with
  | some (.arr list) =>
    match list with
    | [] => (st, [.send cid (.noticeMsg "Empty message")])
    | t :: args =>
      match t with
      | .str msgType =>
        if msgType == "EVENT" then handleEvent checkSig st cid args
        else if msgType == "REQ" then handleReq st cid args
        else if msgType == "CLOSE" then handleClose st cid args
        else (st, [.send cid (.noticeMsg ("Unknown message type: " ++ msgType))])
      | _ => (st, [.send cid (.noticeMsg "Invalid message type")])
  | _ => (st, [.send cid (.noticeMsg "Invalid message format")])

/-- The notice text `handleMessage` produces for a malformed inbound
message, `none` when the message is not treated as malformed.  This is the
spec-side classification of "malformed request" used to state the error
handling property; its branches mirror the guard clauses of
`handleMessage`/`handleEvent`/`handleReq`/`handleClose`. -/
def malformedNotice : Option JVal → Option String
  | none => some "Invalid message format"
  | some (.arr list) =>
    match list with
    | [] => some "Empty message"
    | t :: args =>
      match t with
      | .str msgType =>
        if msgType == "EVENT" then
          match args with
          | [] => some "Invalid EVENT message"
          | v :: _ =>
            match decodeEvent v with
            | none => some "Invalid event format"
            | some _ => none
        else if msgType == "REQ" then
          match args with
          | [] => some "Invalid REQ message"
          | .str _ :: _ => none
          | _ :: _ => some "Invalid subscription ID"
        else if msgType == "CLOSE" then
          match args with
          | [] => some "Invalid CLOSE message"
          | .str _ :: _ => none
          | _ :: _ => some "Invalid subscription ID"
        else some ("Unknown message type: " ++ msgType)
      | _ => some "Invalid message type"
  | some _ => some "Invalid message format"

/-- A sample event used for concrete instantiations. -/
def ev0 : Event := ⟨"abcdef", "pk1234", 100, 1, [["e", "v1", "extra"]], "hi", "sig"⟩

/-- The all-empty filter. -/
def fEmpty : Filter := ⟨[], [], [], none, none, []⟩

/-- A server with one client (id 0, no subscriptions) and an empty store. -/
def st0 : ServerState := ⟨[], [⟨0, []⟩]⟩

/-- A server with `ev0` stored and one client with no subscriptions. -/
def stA : ServerState := ⟨[("abcdef", ev0)], [⟨0, []⟩]⟩

/-- A REQ whose only filter object (a string) fails to decode. -/
def reqBadFilter : Option JVal := some (.arr [.str "REQ", .str "s", .str "bad"])

/-- A signature check that accepts everything (concrete instantiations). -/
def sigOK : Event → Bool := fun _ => true

/-- A signature check that rejects everything (concrete instantiations). -/
def sigBad : Event → Bool := fun _ => false

/-- An existing tag-query match lemma: `tagEntryMatches` holds iff the tag
entry starts with the query name followed by an accepted value. -/
theorem tagEntryMatches_iff (tagName : String) (tagValues : List String)
    (tag : List String) :
    tagEntryMatches tagName tagValues tag = true ↔
      ∃ v rest, tag = tagName :: v :: rest ∧ v ∈ tagValues := by
  match tag with
  | [] => simp [tagEntryMatches]
  | [t0] => simp [tagEntryMatches]
  | t0 :: t1 :: rest =>
    simp only [tagEntryMatches, Bool.and_eq_true, beq_iff_eq, List.elem_iff]
    constructor
    · rintro ⟨rfl, h1⟩
      exact ⟨t1, rest, rfl, h1⟩
    · rintro ⟨v, r, heq, hv⟩
      obtain ⟨rfl, rfl, rfl⟩ : t0 = tagName ∧ t1 = v ∧ rest = r := by
        injection heq with a b
        injection b with c d
        exact ⟨a, c, d⟩
      exact ⟨rfl, hv⟩

/-- C1 counterexample: the empty string is a prefix of every id, yet a
filter whose non-empty `ids` set contains only the empty string does not
match (`len(id) > 0` in src/main.go line 314 skips empty members). -/
theorem c1_counterexample :
    ({ fEmpty with ids := [""] } : Filter).ids ≠ [] ∧
    "" ∈ ({ fEmpty with ids := [""] } : Filter).ids ∧
    prefixMatch "" ev0.id = true ∧
    idsMatch ev0 { fEmpty with ids := [""] } = false := by decide

/-- C1 (amended): for a non-empty `ids` set, the ids check succeeds iff
some NON-EMPTY member is a (character) prefix of `event.id`; symmetrically
for `authors` over `event.pubkey`.  Empty-string members never match. -/
theorem c1_prefix_semantics (event : Event) (filter : Filter) :
    (filter.ids ≠ [] →
      (idsMatch event filter = true ↔
        ∃ id ∈ filter.ids, id ≠ "" ∧ prefixMatch id event.id = true)) ∧
    (filter.authors ≠ [] →
      (authorsMatch event filter = true ↔
        ∃ a ∈ filter.authors, a ≠ "" ∧ prefixMatch a event.pubkey = true)) := by
  constructor
  · intro h
    simp [idsMatch, List.any_eq_true, h]
  · intro h
    simp [authorsMatch, List.any_eq_true, h]

/-- Witness for C1: a two-character prefix of the id and of the pubkey
each satisfy their check on a concrete event. -/
theorem c1_witness :
    idsMatch ev0 ⟨["ab"], ["pk"], [], none, none, []⟩ = true ∧
    authorsMatch ev0 ⟨["ab"], ["pk"], [], none, none, []⟩ = true := by
  have h := c1_prefix_semantics ev0 ⟨["ab"], ["pk"], [], none, none, []⟩
  exact ⟨(h.1 (by decide)).mpr ⟨"ab", by decide, by decide, by decide⟩,
         (h.2 (by decide)).mpr ⟨"pk", by decide, by decide, by decide⟩⟩

/-- C4: with a non-empty tags mapping, the tags check succeeds iff every
key with a non-empty value set has a witnessing tag entry of length >= 2
whose element 0 is the key and element 1 is an accepted value (later
elements ignored); keys with an empty value set impose no constraint. -/
theorem c4_tag_matching (event : Event) (filter : Filter)
    (_h : filter.tags ≠ []) :
    tagsMatch event filter = true ↔
      ∀ p ∈ filter.tags, p.2 ≠ [] →
        ∃ tag ∈ event.tags, ∃ v rest, tag = p.1 :: v :: rest ∧ v ∈ p.2 := by
  simp [tagsMatch, List.all_eq_true, List.any_eq_true, tagEntryMatches_iff,
    or_iff_not_imp_left]

/-- Witness for C4: the filter `tags={"e":{"v1"}}` accepts the event with
tag `["e","v1","extra"]`. -/
theorem c4_witness :
    tagsMatch ev0 ⟨[], [], [], none, none, [("e", ["v1"])]⟩ = true := by
  have h := c4_tag_matching ev0 ⟨[], [], [], none, none, [("e", ["v1"])]⟩ (by decide)
  refine h.mpr ?_
  intro p hp hne
  obtain rfl : p = ("e", ["v1"]) := by simpa using hp
  exact ⟨["e", "v1", "extra"], by decide, "v1", ["extra"], rfl, by decide⟩

/-- C5: a present `since` bound is satisfied iff `since <= created_at`; a
present `until` bound iff `created_at <= until`; both inclusive. -/
theorem c5_time_bounds (event : Event) (filter : Filter) :
    (∀ s, filter.since = some s →
      (sinceMatch event filter = true ↔ s ≤ event.created_at)) ∧
    (∀ u, filter.until_ = some u →
      (untilMatch event filter = true ↔ event.created_at ≤ u)) := by
  constructor
  · intro s hs
    simp [sinceMatch, hs, not_lt]
  · intro u hu
    simp [untilMatch, hu, not_lt]

/-- Witness for C5: `created_at = 100` satisfies both `since = 100` and
`until = 100` (inclusive bounds). -/
theorem c5_witness :
    sinceMatch ev0 ⟨[], [], [], some 100, some 100, []⟩ = true ∧
    untilMatch ev0 ⟨[], [], [], some 100, some 100, []⟩ = true := by
  have h := c5_time_bounds ev0 ⟨[], [], [], some 100, some 100, []⟩
  exact ⟨(h.1 100 rfl).mpr (by decide), (h.2 100 rfl).mpr (by decide)⟩

/-- C8: a filter with every field empty or absent matches every event,
both as a single filter and as a one-element filter list. -/
theorem c8_vacuous_filter (event : Event) (filter : Filter)
    (h1 : filter.ids = []) (h2 : filter.authors = []) (h3 : filter.kinds = [])
    (h4 : filter.since = none) (h5 : filter.until_ = none)
    (h6 : filter.tags = []) :
    eventMatchesFilter event filter = true ∧
    eventMatchesFilters event [filter] = true := by
  have hm : eventMatchesFilter event filter = true := by
    simp [eventMatchesFilter, idsMatch, authorsMatch, kindsMatch, sinceMatch,
      untilMatch, tagsMatch, h1, h2, h3, h4, h5, h6]
  exact ⟨hm, by simp [eventMatchesFilters, hm]⟩

/-- Witness for C8: the concrete all-empty filter accepts `ev0`. -/
theorem c8_witness :
    eventMatchesFilter ev0 fEmpty = true ∧
    eventMatchesFilters ev0 [fEmpty] = true :=
  c8_vacuous_filter ev0 fEmpty rfl rfl rfl rfl rfl rfl

/-- Every action produced by `broadcastEvent` is a delivery of the
broadcast event to some client under some subscription id. -/
theorem broadcastEvent_mem_shape (st : ServerState) (event : Event) :
    ∀ a ∈ broadcastEvent st event,
      ∃ c s, a = Action.send c (.eventMsg s event) := by
  intro a ha
  simp only [broadcastEvent, List.mem_flatten, List.mem_map] at ha
  obtain ⟨l, ⟨cl, hcl, rfl⟩, hal⟩ := ha
  simp only [clientBroadcast, List.mem_filterMap] at hal
  obtain ⟨p, hp, heq⟩ := hal
  split at heq
  · exact ⟨cl.cid, p.1, (Option.some.inj heq).symm⟩
  · exact Option.noConfusion heq

/-- C2: a publish whose event fails the signature check yields exactly one
OK/false "invalid signature" acknowledgment referencing the event's id;
the state (hence the event store) is unchanged and nothing is broadcast. -/
theorem c2_invalid_signature (checkSig : Event → Bool) (st : ServerState)
    (cid : Nat) (event : Event) (h : checkSig event = false) :
    processEvent checkSig st cid event =
      (st, [.send cid (.okMsg event.id false "invalid signature")]) := by
  simp [processEvent, h]

/-- Witness for C2: a rejected publish on a concrete server. -/
theorem c2_witness :
    processEvent sigBad st0 0 ev0 =
      (st0, [.send 0 (.okMsg "abcdef" false "invalid signature")]) :=
  c2_invalid_signature sigBad st0 0 ev0 rfl

/-- C6: on a successful publish the store write comes first, then the
OK/true acknowledgment to the publisher, and only then the broadcast
deliveries; in particular no broadcast delivery precedes the
acknowledgment. -/
theorem c6_side_effect_order (checkSig : Event → Bool) (st : ServerState)
    (cid : Nat) (event : Event) (h : checkSig event = true) :
    (processEvent checkSig st cid event).1.events =
        mapPut st.events event.id event ∧
    ∃ bc, (processEvent checkSig st cid event).2 =
        Action.store event.id event ::
          Action.send cid (.okMsg event.id true "") :: bc ∧
      ∀ a ∈ bc, ∃ c s, a = Action.send c (.eventMsg s event) := by
  constructor
  · simp [processEvent, h]
  · refine ⟨broadcastEvent { st with events := mapPut st.events event.id event }
      event, ?_, ?_⟩
    · simp [processEvent, h]
    · exact broadcastEvent_mem_shape _ event

/-- Witness for C6: a concrete accepted publish stores the event. -/
theorem c6_witness :
    (processEvent sigOK st0 0 ev0).1.events = mapPut st0.events ev0.id ev0 :=
  (c6_side_effect_order sigOK st0 0 ev0 rfl).1

/-- Overwriting insert: the entries of `mapPut m k v` with key `k` are
exactly the single new binding. -/
theorem filter_mapPut {β : Type} (m : List (String × β)) (k : String) (v : β) :
    (mapPut m k v).filter (fun p => p.1 == k) = [(k, v)] := by
  simp only [mapPut, List.filter_cons, beq_self_eq_true, if_pos, List.filter_filter]
  rw [List.filter_eq_nil_iff.mpr]
  intro p _
  simp

/-- C7: publishing two valid events with the same id leaves exactly one
stored copy under that id, the second (last-write-wins, no deduplication
error), and each publish produces its own OK/true acknowledgment. -/
theorem c7_idempotent_store (checkSig : Event → Bool) (st : ServerState)
    (cid : Nat) (e1 e2 : Event) (h1 : checkSig e1 = true)
    (h2 : checkSig e2 = true) (_hid : e1.id = e2.id) :
    ((processEvent checkSig (processEvent checkSig st cid e1).1 cid
        e2).1.events.filter (fun p => p.1 == e2.id) = [(e2.id, e2)]) ∧
    Action.send cid (.okMsg e1.id true "") ∈ (processEvent checkSig st cid e1).2 ∧
    Action.send cid (.okMsg e2.id true "") ∈
      (processEvent checkSig (processEvent checkSig st cid e1).1 cid e2).2 := by
  refine ⟨?_, ?_, ?_⟩
  · have : (processEvent checkSig (processEvent checkSig st cid e1).1 cid
        e2).1.events = mapPut (mapPut st.events e1.id e1) e2.id e2 := by
      simp [processEvent, h1, h2]
    rw [this]
    exact filter_mapPut _ _ _
  · simp [processEvent, h1]
  · simp [processEvent, h1, h2]

/-- Witness for C7: republishing `ev0` leaves one stored copy and both
publishes are acknowledged. -/
theorem c7_witness :
    ((processEvent sigOK (processEvent sigOK st0 0 ev0).1 0
        ev0).1.events.filter (fun p => p.1 == ev0.id) = [(ev0.id, ev0)]) ∧
    Action.send 0 (.okMsg ev0.id true "") ∈ (processEvent sigOK st0 0 ev0).2 :=
  ⟨(c7_idempotent_store sigOK st0 0 ev0 ev0 rfl rfl rfl).1,
   (c7_idempotent_store sigOK st0 0 ev0 ev0 rfl rfl rfl).2.1⟩

/-- Looking up the inserted key after an overwriting insert yields the new
value. -/
theorem lookup_mapPut {β : Type} (m : List (String × β)) (k : String) (v : β) :
    List.lookup k (mapPut m k v) = some v := by
  simp [mapPut, List.lookup]

/-- The replay trace contains only event deliveries tagged with the
requested subscription id. -/
theorem replayTrace_mem_shape (events : List (String × Event)) (cid : Nat)
    (subId : String) (filters : List Filter) :
    ∀ a ∈ replayTrace events cid subId filters,
      ∃ e, a = Action.send cid (.eventMsg subId e) := by
  intro a ha
  simp only [replayTrace, List.mem_filterMap] at ha
  obtain ⟨p, hp, heq⟩ := ha
  split at heq
  · exact ⟨p.2, (Option.some.inj heq).symm⟩
  · exact Option.noConfusion heq

/-- C3: a subscribe request replaces any existing subscription under the
same id on the requesting connection without error; every stored matching
event (and only matching events) is delivered tagged with the subscription
id; and the output ends with exactly one EOSE marker for it. -/
theorem c3_subscribe_replay (st : ServerState) (cid : Nat) (subId : String)
    (filters : List Filter) :
    (∀ cl ∈ (processReq st cid subId filters).1.clients,
      cl.cid = cid → List.lookup subId cl.subscriptions = some filters) ∧
    (∀ event : Event,
      Action.send cid (.eventMsg subId event) ∈
          (processReq st cid subId filters).2 ↔
        (∃ id, (id, event) ∈ st.events) ∧
          eventMatchesFilters event filters = true) ∧
    ((processReq st cid subId filters).2.count
      (.send cid (.eoseMsg subId)) = 1) ∧
    ((processReq st cid subId filters).2.getLast? =
      some (.send cid (.eoseMsg subId))) ∧
    (∀ s, Action.send cid (.noticeMsg s) ∉ (processReq st cid subId filters).2) := by
  have hnotin : Action.send cid (.eoseMsg subId) ∉
      replayTrace st.events cid subId filters := by
    intro hmem
    obtain ⟨e, he⟩ := replayTrace_mem_shape st.events cid subId filters _ hmem
    exact OutMsg.noConfusion (Action.send.inj he).2
  refine ⟨?_, ?_, ?_, ?_, ?_⟩
  · intro cl hcl hcid
    simp only [processReq, List.mem_map] at hcl
    obtain ⟨cl0, hcl0, rfl⟩ := hcl
    by_cases h : cl0.cid == cid
    · simp [subscribeClient, h, lookup_mapPut]
    · rw [subscribeClient, if_neg (by simpa using h)] at hcid ⊢
      exact absurd hcid (by simpa using h)
  · intro event
    constructor
    · intro hmem
      rw [processReq] at hmem
      simp only [List.mem_append, List.mem_singleton] at hmem
      rcases hmem with hm | hm
      · simp only [replayTrace, List.mem_filterMap] at hm
        obtain ⟨⟨pid, pe⟩, hp, heq⟩ := hm
        split at heq
        case isTrue hmatch =>
          have hpe : pe = event := by
            have := Option.some.inj heq
            simpa using (Action.send.inj this).2
          subst hpe
          exact ⟨⟨pid, hp⟩, hmatch⟩
        case isFalse => exact Option.noConfusion heq
      · exact absurd (Action.send.inj hm).2 (fun h => OutMsg.noConfusion h)
    · rintro ⟨⟨id, hid⟩, hmatch⟩
      rw [processReq]
      apply List.mem_append_left
      simp only [replayTrace, List.mem_filterMap]
      exact ⟨(id, event), hid, by simp [hmatch]⟩
  · rw [processReq]
    simp [List.count_append, List.count_eq_zero.mpr hnotin]
  · rw [processReq]
    simp [List.getLast?_concat]
  · intro s hmem
    rw [processReq] at hmem
    simp only [List.mem_append, List.mem_singleton] at hmem
    rcases hmem with hm | hm
    · obtain ⟨e, he⟩ := replayTrace_mem_shape st.events cid subId filters _ hm
      exact OutMsg.noConfusion (Action.send.inj he).2
    · exact OutMsg.noConfusion (Action.send.inj hm).2

/-- Witness for C3: on a server holding one event, a subscribe with the
all-empty filter replays that event and is acknowledged by one EOSE. -/
theorem c3_witness :
    Action.send 0 (.eventMsg "s" ev0) ∈ (processReq stA 0 "s" [fEmpty]).2 ∧
    (processReq stA 0 "s" [fEmpty]).2.count (.send 0 (.eoseMsg "s")) = 1 := by
  have h := c3_subscribe_replay stA 0 "s" [fEmpty]
  exact ⟨(h.2.1 ev0).mpr ⟨⟨"abcdef", by decide⟩, by decide⟩, h.2.2.1⟩

/-- C10: the OR over an empty filter list is false, so a subscription
registered with zero (decoded) filters gets an empty historical replay —
its whole output is the EOSE marker — and a broadcast delivery to a
subscription only ever arises from a registered filter list that matches,
so such a subscription also gets no live deliveries. -/
theorem c10_or_over_zero_filters :
    (∀ event : Event, eventMatchesFilters event [] = false) ∧
    (∀ (st : ServerState) (cid : Nat) (subId : String),
      processReq st cid subId [] =
        ({ st with clients := st.clients.map (subscribeClient cid subId []) },
          [Action.send cid (.eoseMsg subId)])) ∧
    (∀ (cl : Client) (event : Event) (c : Nat) (subId : String),
      Action.send c (.eventMsg subId event) ∈ clientBroadcast event cl →
        ∃ fs, (subId, fs) ∈ cl.subscriptions ∧
          eventMatchesFilters event fs = true) := by
  refine ⟨fun _ => rfl, ?_, ?_⟩
  · intro st cid subId
    simp [processReq, replayTrace, eventMatchesFilters]
  · intro cl event c subId hmem
    simp only [clientBroadcast, List.mem_filterMap] at hmem
    obtain ⟨⟨sid, fs⟩, hp, heq⟩ := hmem
    split at heq
    case isTrue hmatch =>
      have := Option.some.inj heq
      have hsid : sid = subId := (OutMsg.eventMsg.inj (Action.send.inj this).2).1
      subst hsid
      exact ⟨fs, hp, hmatch⟩
    case isFalse => exact Option.noConfusion heq

/-- Witness for C10: a zero-filter subscribe on a concrete server emits
only EOSE, and a broadcast delivery that did occur exposes its matching
registered filter list. -/
theorem c10_witness :
    eventMatchesFilters ev0 [] = false ∧
    processReq st0 0 "s" [] =
      (⟨[], [⟨0, [("s", [])]⟩]⟩, [Action.send 0 (.eoseMsg "s")]) ∧
    eventMatchesFilters ev0 [fEmpty] = true := by
  refine ⟨c10_or_over_zero_filters.1 ev0, ?_, ?_⟩
  · rw [c10_or_over_zero_filters.2.1 st0 0 "s"]
    decide
  · obtain ⟨fs, hmem, hmatch⟩ :=
      c10_or_over_zero_filters.2.2 ⟨1, [("t", [fEmpty])]⟩ ev0 1 "t" (by decide)
    have hfs : fs = [fEmpty] := by simpa using hmem
    rwa [hfs] at hmatch

/-- C9 counterexample: a REQ whose only filter object fails to decode is
not answered with a NOTICE — its only output is the EOSE — and it does
change state: the subscription is registered (with zero filters). -/
theorem c9_counterexample :
    handleMessage sigOK st0 0 reqBadFilter =
      ((⟨[], [⟨0, [("s", [])]⟩]⟩ : ServerState),
        [Action.send 0 (.eoseMsg "s")]) ∧
    ((⟨[], [⟨0, [("s", [])]⟩]⟩ : ServerState) ≠ st0) := by decide

/-- C9 (amended): every inbound message the handler treats as malformed
(classified by `malformedNotice`: unparseable or non-array message, empty
message, non-string type tag, unknown type, EVENT with missing or
undecodable event object, REQ or CLOSE with missing or non-string
subscription id) is answered by exactly that one NOTICE with no state
change; but a REQ with a well-formed subscription id is never malformed:
filter objects that fail to decode are silently dropped and the
subscription is still registered with the filters that did decode. -/
theorem c9_malformed_handling (checkSig : Event → Bool) (st : ServerState)
    (cid : Nat) (m : Option JVal) :
    (∀ s, malformedNotice m = some s →
      handleMessage checkSig st cid m = (st, [.send cid (.noticeMsg s)])) ∧
    (∀ (subId : String) (vals : List JVal),
      handleMessage checkSig st cid
          (some (.arr (.str "REQ" :: .str subId :: vals))) =
        processReq st cid subId (vals.filterMap decodeFilter)) := by
  constructor
  · intro s hs
    cases m with
    | none => obtain rfl : "Invalid message format" = s := Option.some.inj hs; rfl
    | some v =>
      cases v with
      | null => obtain rfl : "Invalid message format" = s := Option.some.inj hs; rfl
      | bool b => obtain rfl : "Invalid message format" = s := Option.some.inj hs; rfl
      | num n => obtain rfl : "Invalid message format" = s := Option.some.inj hs; rfl
      | str s' => obtain rfl : "Invalid message format" = s := Option.some.inj hs; rfl
      | obj fields =>
        obtain rfl : "Invalid message format" = s := Option.some.inj hs; rfl
      | arr list =>
        cases list with
        | nil => obtain rfl : "Empty message" = s := Option.some.inj hs; rfl
        | cons t args =>
          cases t with
          | null => obtain rfl : "Invalid message type" = s := Option.some.inj hs; rfl
          | bool b => obtain rfl : "Invalid message type" = s := Option.some.inj hs; rfl
          | num n => obtain rfl : "Invalid message type" = s := Option.some.inj hs; rfl
          | arr l => obtain rfl : "Invalid message type" = s := Option.some.inj hs; rfl
          | obj fields =>
            obtain rfl : "Invalid message type" = s := Option.some.inj hs; rfl
          | str msgType =>
            by_cases hE : msgType = "EVENT"
            · subst hE
              cases args with
              | nil => obtain rfl : "Invalid EVENT message" = s := Option.some.inj hs; rfl
              | cons v rest =>
                cases hdec : decodeEvent v with
                | none =>
                  simp only [malformedNotice, beq_self_eq_true, if_true, hdec] at hs
                  obtain rfl := Option.some.inj hs
                  simp [handleMessage, handleEvent, hdec]
                | some e => simp [malformedNotice, hdec] at hs
            · have hE' : (msgType == "EVENT") = false := beq_eq_false_iff_ne.mpr hE
              by_cases hR : msgType = "REQ"
              · subst hR
                cases args with
                | nil => obtain rfl : "Invalid REQ message" = s := Option.some.inj hs; rfl
                | cons v rest =>
                  cases v with
                  | str subId => simp [malformedNotice] at hs
                  | null =>
                    obtain rfl : "Invalid subscription ID" = s := Option.some.inj hs; rfl
                  | bool b =>
                    obtain rfl : "Invalid subscription ID" = s := Option.some.inj hs; rfl
                  | num n =>
                    obtain rfl : "Invalid subscription ID" = s := Option.some.inj hs; rfl
                  | arr l =>
                    obtain rfl : "Invalid subscription ID" = s := Option.some.inj hs; rfl
                  | obj fields =>
                    obtain rfl : "Invalid subscription ID" = s := Option.some.inj hs; rfl
              · have hR' : (msgType == "REQ") = false := beq_eq_false_iff_ne.mpr hR
                by_cases hC : msgType = "CLOSE"
                · subst hC
                  cases args with
                  | nil =>
                    obtain rfl : "Invalid CLOSE message" = s := Option.some.inj hs; rfl
                  | cons v rest =>
                    cases v with
                    | str subId => simp [malformedNotice] at hs
                    | null =>
                      obtain rfl : "Invalid subscription ID" = s := Option.some.inj hs; rfl
                    | bool b =>
                      obtain rfl : "Invalid subscription ID" = s := Option.some.inj hs; rfl
                    | num n =>
                      obtain rfl : "Invalid subscription ID" = s := Option.some.inj hs; rfl
                    | arr l =>
                      obtain rfl : "Invalid subscription ID" = s := Option.some.inj hs; rfl
                    | obj fields =>
                      obtain rfl : "Invalid subscription ID" = s := Option.some.inj hs; rfl
                · have hC' : (msgType == "CLOSE") = false := beq_eq_false_iff_ne.mpr hC
                  have hs' : ("Unknown message type: " ++ msgType) = s := by
                    simpa [malformedNotice, hE', hR', hC'] using hs
                  subst hs'
                  simp [handleMessage, hE', hR', hC']
  · intro subId vals
    rfl

/-- Witness for C9: an unparseable message on a concrete server draws the
format NOTICE and leaves the state unchanged, and a REQ whose only filter
object fails to decode is processed as a zero-filter subscribe. -/
theorem c9_witness :
    handleMessage sigOK st0 0 none =
      (st0, [Action.send 0 (.noticeMsg "Invalid message format")]) ∧
    handleMessage sigOK st0 0 reqBadFilter = processReq st0 0 "s" [] := by
  constructor
  · exact (c9_malformed_handling sigOK st0 0 none).1 _ rfl
  · have h := (c9_malformed_handling sigOK st0 0 none).2 "s" [.str "bad"]
    simpa using h

end Nostr
